import Mathlib

/-!
Verification of the ELF32 header parser of `mark_readelf`.

The decoding core lives in `src/parse.rs` (error taxonomy `ParseError`, the
little-endian cursor `Parser`, `verify_e_ident`, `parse_e_ident`,
`parse_elf_header_32`); the decoded records live in `src/elf/header.rs` and
`src/elf/program_header.rs`, and the program-header-table renderer in
`src/elf.rs`.  Byte buffers are embedded as `List Nat` (each entry one byte),
machine integers as `Nat`.  A Rust function that can panic (out-of-range slice
indexing) is embedded with an outer `Option`: `none` is the panic.
-/

namespace Readelf

/-! ## ABI constants

The crate references a module `abi` whose file is not part of the sources;
its constants are the standard ELF identification constants, which the spec
fixes (16-byte identification region: magic 4 bytes, then class,
data-encoding, version, OS/ABI, ABI-version bytes; magic `0x7F 'E' 'L' 'F'`;
ELF32 class, little-endian data, current version — all the accepted codes
are 1, as the rendered magic line `7f 45 4c 46 01 01 01 00 ...` shows). -/

/-- Modelled from the spec: offset of the class byte / length of the magic. -/
def EI_CLASS : Nat := 4

/-- Modelled from the spec: offset of the data-encoding byte. -/
def EI_DATA : Nat := 5

/-- Modelled from the spec: offset of the version byte. -/
def EI_VERSION : Nat := 6

/-- Modelled from the spec: offset of the OS/ABI byte. -/
def EI_OSABI : Nat := 7

/-- Modelled from the spec: offset of the ABI-version byte. -/
def EI_ABIVERSION : Nat := 8

/-- Modelled from the spec: length of the identification region. -/
def EI_NIDENT : Nat := 16

/-- Modelled from the spec: the canonical ELF magic bytes 0x7F 'E' 'L' 'F'. -/
def ELFMAGIC : List Nat := [0x7F, 0x45, 0x4C, 0x46]

/-- Modelled from the spec: the ELF32 class code. -/
def ELFCLASS32 : Nat := 1

/-- Modelled from the spec: the little-endian data-encoding code. -/
def ELFDATA2LSB : Nat := 1

/-- Modelled from the spec: the current ELF version. -/
def EV_CURRENT : Nat := 1

/-! ## Error taxonomy (src/parse.rs, `ParseError`)

Only the variants reachable from the modelled functions are embedded. -/

inductive ParseError where
  | BadMagic (magic : List Nat)
  | UnsupportedElfClass (b : Nat)
  | UnsupportedElfEndianness (b : Nat)
  | UnsupportedVersion (found expected : Nat)
  | UnsupportedFileType (t : Nat)
  | SliceReadError (start stop : Nat)
  | UnsupportedProgramHeaderType (t : Nat)
deriving DecidableEq, Repr

/-! ## Decoded records (src/elf/header.rs, src/elf/program_header.rs) -/

inductive FileType where
  | None
  | Rel
  | Exec
  | Dyn
  | Core
deriving DecidableEq, Repr

/-- `ElfHeader32` of src/elf/header.rs; the `OsAbi`/`Machine` newtype
wrappers around `u8`/`u16` are embedded as their raw `Nat` payload. -/
structure ElfHeader32 where
  os_abi : Nat
  abi_version : Nat
  file_type : FileType
  machine : Nat
  entry : Nat
  program_header_offset : Nat
  section_header_offset : Nat
  elf_header_size : Nat
  program_header_entry_size : Nat
  program_header_entries : Nat
  section_header_entry_size : Nat
  section_header_entries : Nat
  string_table_index : Nat
deriving DecidableEq, Repr

inductive HeaderType where
  | Null
  | Load
  | Dynamic
  | Interpreter
  | Note
  | ProgramHeaderTable
  | GnuStack
deriving DecidableEq, Repr

structure ProgramHeader where
  header_type : HeaderType
  offset : Nat
  virtual_address : Nat
  physical_address : Nat
  size_in_file : Nat
  size_in_memory : Nat
  flags : Nat
  alignment : Nat
deriving DecidableEq, Repr

/-! ## The little-endian cursor (src/parse.rs, `Parser`) -/

/-- Byte access: `buffer[i]`, with an (unreachable under the bounds checks)
default of 0. -/
def byte (buffer : List Nat) (i : Nat) : Nat := buffer.getD i 0

structure Parser where
  offset : Nat
  buffer : List Nat
deriving DecidableEq, Repr

instance {ε α : Type} [DecidableEq ε] [DecidableEq α] : DecidableEq (Except ε α) := fun
  | Except.error e1, Except.error e2 =>
    if h : e1 = e2 then Decidable.isTrue (by rw [h])
    else Decidable.isFalse (by intro hc; cases hc; exact h rfl)
  | Except.error _, Except.ok _ => Decidable.isFalse (by intro hc; cases hc)
  | Except.ok _, Except.error _ => Decidable.isFalse (by intro hc; cases hc)
  | Except.ok v1, Except.ok v2 =>
    if h : v1 = v2 then Decidable.isTrue (by rw [h])
    else Decidable.isFalse (by intro hc; cases hc; exact h rfl)

def Parser.new (buffer : List Nat) : Parser := ⟨0, buffer⟩

/-- `Parser::parse_u8`: `buffer.get(start)` succeeds exactly when
`start < buffer.len()`; on success the offset moves to `start + 1`.
The pair returns the (possibly unchanged) cursor, mirroring `&mut self`. -/
def Parser.parse_u8 (p : Parser) : Except ParseError Nat × Parser :=
  let start := p.offset
  let stop := start + 1
  if stop ≤ p.buffer.length then
    (Except.ok (byte p.buffer start), { p with offset := stop })
  else
    (Except.error (ParseError.SliceReadError start stop), p)

/-- `Parser::parse_u16`: `buffer.get(start..end)` succeeds exactly when
`end ≤ buffer.len()`; the value is `u16::from_le_bytes` of the two bytes. -/
def Parser.parse_u16 (p : Parser) : Except ParseError Nat × Parser :=
  let start := p.offset
  let stop := start + 2
  if stop ≤ p.buffer.length then
    (Except.ok (byte p.buffer start + 256 * byte p.buffer (start + 1)),
      { p with offset := stop })
  else
    (Except.error (ParseError.SliceReadError start stop), p)

/-- `Parser::parse_u32`: four bytes, little-endian. -/
def Parser.parse_u32 (p : Parser) : Except ParseError Nat × Parser :=
  let start := p.offset
  let stop := start + 4
  if stop ≤ p.buffer.length then
    (Except.ok (byte p.buffer start + 256 * byte p.buffer (start + 1) +
        65536 * byte p.buffer (start + 2) + 16777216 * byte p.buffer (start + 3)),
      { p with offset := stop })
  else
    (Except.error (ParseError.SliceReadError start stop), p)

/-- `Parser::skip_u8`: `self.offset += 1`, no bounds check. -/
def Parser.skip_u8 (p : Parser) : Parser := { p with offset := p.offset + 1 }

/-- `Parser::skip_u16`: `self.offset += 2`, no bounds check. -/
def Parser.skip_u16 (p : Parser) : Parser := { p with offset := p.offset + 2 }

/-- `Parser::skip_u32`: `self.offset += 4`, no bounds check. -/
def Parser.skip_u32 (p : Parser) : Parser := { p with offset := p.offset + 4 }

/-- Sequencing of a cursor read with the rest of a decode: the Rust `?`
operator applied to a `parse_*` call on `&mut self`. -/
def pbind {α β : Type} (r : Except ParseError α × Parser)
    (f : α → Parser → Except ParseError β) : Except ParseError β :=
  match r with
  | (Except.error e, _) => Except.error e
  | (Except.ok v, p) => f v p

/-! ## Identification verification (src/parse.rs) -/

/-- `verify_e_ident` of src/parse.rs.  `buffer.split_at(EI_CLASS)` panics when
the buffer is shorter than 4 bytes, and the direct index reads
`buffer[EI_CLASS]`, `buffer[EI_DATA]`, `buffer[EI_VERSION]` panic when out of
range; a panic is `none`. -/
def verify_e_ident (buffer : List Nat) : Option (Except ParseError Unit) :=
  if buffer.length < EI_CLASS then
    none
  else
    let magic := buffer.take EI_CLASS
    if magic ≠ ELFMAGIC then
      some (Except.error (ParseError.BadMagic magic))
    else if h4 : EI_CLASS < buffer.length then
      let cls := buffer.get ⟨EI_CLASS, h4⟩
      if cls ≠ ELFCLASS32 then
        some (Except.error (ParseError.UnsupportedElfClass cls))
      else if h5 : EI_DATA < buffer.length then
        let endianness := buffer.get ⟨EI_DATA, h5⟩
        if endianness ≠ ELFDATA2LSB then
          some (Except.error (ParseError.UnsupportedElfEndianness endianness))
        else if h6 : EI_VERSION < buffer.length then
          let specification_version := buffer.get ⟨EI_VERSION, h6⟩
          if specification_version ≠ EV_CURRENT then
            some (Except.error
              (ParseError.UnsupportedVersion specification_version EV_CURRENT))
          else
            some (Except.ok ())
        else none
      else none
    else none

/-- `parse_e_ident` of src/parse.rs: after verification, project the OS/ABI
and ABI-version bytes verbatim (`buffer[EI_OSABI]`, `buffer[EI_ABIVERSION]`
are direct index reads, hence panic when out of range). -/
def parse_e_ident (buffer : List Nat) : Option (Except ParseError (Nat × Nat)) :=
  match verify_e_ident buffer with
  | none => none
  | some (Except.error e) => some (Except.error e)
  | some (Except.ok ()) =>
    if h7 : EI_OSABI < buffer.length then
      if h8 : EI_ABIVERSION < buffer.length then
        some (Except.ok (buffer.get ⟨EI_OSABI, h7⟩, buffer.get ⟨EI_ABIVERSION, h8⟩))
      else none
    else none

/-- The `match file_type { 0 => … , ft => Err(UnsupportedFileType(ft)) }`
of `parse_elf_header_32`. -/
def fileTypeOfCode (c : Nat) : Except ParseError FileType :=
  match c with
  | 0 => Except.ok FileType.None
  | 1 => Except.ok FileType.Rel
  | 2 => Except.ok FileType.Exec
  | 3 => Except.ok FileType.Dyn
  | 4 => Except.ok FileType.Core
  | c => Except.error (ParseError.UnsupportedFileType c)

/-- The body of `parse_elf_header_32` after `parse_e_ident`: the sequential
cursor reads over `&buffer[EI_NIDENT..]` (passed here as `rest`), in source
order — u16 file type, u16 machine, skipped u32 version, u32 entry, u32
program-header offset, u32 section-header offset, skipped u32 flags, then six
u16 fields. -/
def parse_header_fields (os_abi abi_version : Nat) (rest : List Nat) :
    Except ParseError ElfHeader32 :=
  pbind (Parser.new rest).parse_u16 fun ftc p1 =>
  pbind (fileTypeOfCode ftc, p1) fun file_type p1 =>
  pbind p1.parse_u16 fun machine p2 =>
  pbind (p2.skip_u32).parse_u32 fun entry p3 =>
  pbind p3.parse_u32 fun program_header_offset p4 =>
  pbind p4.parse_u32 fun section_header_offset p5 =>
  pbind (p5.skip_u32).parse_u16 fun elf_header_size p6 =>
  pbind p6.parse_u16 fun program_header_entry_size p7 =>
  pbind p7.parse_u16 fun program_header_entries p8 =>
  pbind p8.parse_u16 fun section_header_entry_size p9 =>
  pbind p9.parse_u16 fun section_header_entries p10 =>
  pbind p10.parse_u16 fun string_table_index _ =>
  Except.ok
    { os_abi := os_abi
      abi_version := abi_version
      file_type := file_type
      machine := machine
      entry := entry
      program_header_offset := program_header_offset
      section_header_offset := section_header_offset
      elf_header_size := elf_header_size
      program_header_entry_size := program_header_entry_size
      program_header_entries := program_header_entries
      section_header_entry_size := section_header_entry_size
      section_header_entries := section_header_entries
      string_table_index := string_table_index }

/-- `parse_elf_header_32` of src/parse.rs.  The slice expressions
`&buffer[..EI_NIDENT]` and `&buffer[EI_NIDENT..]` panic when the buffer is
shorter than 16 bytes (`none`); otherwise `parse_e_ident` runs on the first
16 bytes and the cursor reads run on the rest. -/
def parse_elf_header_32 (buffer : List Nat) :
    Option (Except ParseError ElfHeader32) :=
  if buffer.length < EI_NIDENT then
    none
  else
    match parse_e_ident (buffer.take EI_NIDENT) with
    | none => none
    | some (Except.error e) => some (Except.error e)
    | some (Except.ok (os_abi, abi_version)) =>
      some (parse_header_fields os_abi abi_version (buffer.drop EI_NIDENT))

/-! ## Byte-access lemmas -/

theorem byte_nil (i : Nat) : byte [] i = 0 := rfl

theorem byte_cons_zero (a : Nat) (l : List Nat) : byte (a :: l) 0 = a := rfl

theorem byte_cons_succ (a : Nat) (l : List Nat) (i : Nat) :
    byte (a :: l) (i + 1) = byte l i := rfl

theorem byte_drop (l : List Nat) (n i : Nat) :
    byte (l.drop n) i = byte l (n + i) := by
  induction n generalizing l with
  | zero => simp
  | succ n ih =>
    cases l with
    | nil => simp [byte]
    | cons a l =>
      rw [List.drop_succ_cons, ih l]
      show byte l (n + i) = byte (a :: l) (n + 1 + i)
      rw [Nat.add_right_comm n 1 i, byte_cons_succ]

theorem byte_take (l : List Nat) (n i : Nat) (h : i < n) :
    byte (l.take n) i = byte l i := by
  induction n generalizing l i with
  | zero => omega
  | succ n ih =>
    cases l with
    | nil => simp
    | cons a l =>
      rw [List.take_succ_cons]
      cases i with
      | zero => rfl
      | succ i => rw [byte_cons_succ, byte_cons_succ, ih l i (by omega)]

theorem byte_append_right (l1 l2 : List Nat) (i : Nat) :
    byte (l1 ++ l2) (l1.length + i) = byte l2 i := by
  induction l1 with
  | nil => simp
  | cons a l1 ih =>
    rw [List.cons_append]
    show byte (a :: (l1 ++ l2)) (l1.length + 1 + i) = byte l2 i
    rw [Nat.add_right_comm, byte_cons_succ, ih]

theorem byte_congr_of_take_eq {l1 l2 : List Nat} {n : Nat}
    (h : l1.take n = l2.take n) (i : Nat) (hi : i < n) :
    byte l1 i = byte l2 i := by
  rw [← byte_take l1 n i hi, ← byte_take l2 n i hi, h]

/-! ## C6: cursor read invariant -/

/-- C6: each cursor read (`parse_u8`, `parse_u16`, `parse_u32`) either
succeeds and advances the offset by exactly the field width (1, 2, 4),
leaving the offset within the buffer length, or fails leaving the cursor
untouched. -/
theorem cursor_read_invariant (p : Parser) :
    (∀ v p', p.parse_u8 = (Except.ok v, p') →
      p'.buffer = p.buffer ∧ p'.offset = p.offset + 1 ∧
        p'.offset ≤ p.buffer.length) ∧
    (∀ e p', p.parse_u8 = (Except.error e, p') → p' = p) ∧
    (∀ v p', p.parse_u16 = (Except.ok v, p') →
      p'.buffer = p.buffer ∧ p'.offset = p.offset + 2 ∧
        p'.offset ≤ p.buffer.length) ∧
    (∀ e p', p.parse_u16 = (Except.error e, p') → p' = p) ∧
    (∀ v p', p.parse_u32 = (Except.ok v, p') →
      p'.buffer = p.buffer ∧ p'.offset = p.offset + 4 ∧
        p'.offset ≤ p.buffer.length) ∧
    (∀ e p', p.parse_u32 = (Except.error e, p') → p' = p) := by
  refine ⟨?_, ?_, ?_, ?_, ?_, ?_⟩ <;> intro a p' h <;>
    simp only [Parser.parse_u8, Parser.parse_u16, Parser.parse_u32] at h <;>
    split at h <;> injection h with h1 h2 <;>
    first
      | exact Except.noConfusion h1
      | (subst h2; exact ⟨rfl, rfl, by assumption⟩)
      | (subst h2; rfl)

/-- Witness for C6: a successful `parse_u16` on a concrete cursor. -/
theorem cursor_read_invariant_witness :
    (Parser.mk 2 [9, 8, 7, 6]).buffer = (Parser.mk 0 [9, 8, 7, 6]).buffer ∧
    (Parser.mk 2 [9, 8, 7, 6]).offset = (Parser.mk 0 [9, 8, 7, 6]).offset + 2 ∧
    (Parser.mk 2 [9, 8, 7, 6]).offset ≤ (Parser.mk 0 [9, 8, 7, 6]).buffer.length :=
  (cursor_read_invariant (Parser.mk 0 [9, 8, 7, 6])).2.2.1 (9 + 256 * 8)
    (Parser.mk 2 [9, 8, 7, 6]) rfl

/-! ## C10: skips have no bounds check -/

/-- C10: the skip operations always succeed, advancing the offset by exactly
1, 2, 4 with no bounds check — from an offset at the buffer end the skipped
offset exceeds the buffer length — and a subsequent read from an offset past
the end fails with a range lying past the buffer end. -/
theorem skip_no_bounds_check (p : Parser) :
    p.skip_u8 = Parser.mk (p.offset + 1) p.buffer ∧
    p.skip_u16 = Parser.mk (p.offset + 2) p.buffer ∧
    p.skip_u32 = Parser.mk (p.offset + 4) p.buffer ∧
    (p.buffer.length ≤ p.offset →
      p.buffer.length < p.skip_u8.offset ∧
      p.buffer.length < p.skip_u16.offset ∧
      p.buffer.length < p.skip_u32.offset) ∧
    (p.buffer.length < p.offset →
      p.parse_u8.1 = Except.error (ParseError.SliceReadError p.offset (p.offset + 1)) ∧
      p.parse_u16.1 = Except.error (ParseError.SliceReadError p.offset (p.offset + 2)) ∧
      p.parse_u32.1 = Except.error (ParseError.SliceReadError p.offset (p.offset + 4))) := by
  refine ⟨rfl, rfl, rfl, fun h => ?_, fun h => ?_⟩
  · simp only [Parser.skip_u8, Parser.skip_u16, Parser.skip_u32]
    omega
  · simp only [Parser.parse_u8, Parser.parse_u16, Parser.parse_u32]
    rw [if_neg (by omega), if_neg (by omega), if_neg (by omega)]
    exact ⟨rfl, rfl, rfl⟩

/-- Witness for C10: skipping from the end of a 1-byte buffer leaves the
offset out of bounds, and the next reads report ranges past the end. -/
theorem skip_no_bounds_check_witness :
    ((Parser.mk 1 [9]).buffer.length < (Parser.mk 1 [9]).skip_u8.offset ∧
      (Parser.mk 1 [9]).buffer.length < (Parser.mk 1 [9]).skip_u16.offset ∧
      (Parser.mk 1 [9]).buffer.length < (Parser.mk 1 [9]).skip_u32.offset) ∧
    ((Parser.mk 2 [9]).parse_u8.1 = Except.error (ParseError.SliceReadError 2 3) ∧
      (Parser.mk 2 [9]).parse_u16.1 = Except.error (ParseError.SliceReadError 2 4) ∧
      (Parser.mk 2 [9]).parse_u32.1 = Except.error (ParseError.SliceReadError 2 6)) :=
  ⟨(skip_no_bounds_check (Parser.mk 1 [9])).2.2.2.1 (by decide),
    (skip_no_bounds_check (Parser.mk 2 [9])).2.2.2.2 (by decide)⟩

/-! ## C2: buffers shorter than the identification region -/

/-- C2: on a buffer shorter than 16 bytes `parse_elf_header_32` does not
return a bounds error — the slice expression `&buffer[..EI_NIDENT]` panics
(modelled as `none`) before any check runs. -/
theorem parse_elf_header_32_short_buffer_panics :
    parse_elf_header_32 [] = none ∧
    parse_elf_header_32 (List.replicate 15 0) = none ∧
    parse_elf_header_32 [0x7F, 0x45, 0x4C, 0x46, 1, 1, 1, 0] = none :=
  ⟨rfl, rfl, rfl⟩

/-! ## C1: bad magic -/

theorem verify_e_ident_bad_magic_aux (buffer : List Nat)
    (h : 4 ≤ buffer.length) (hm : buffer.take 4 ≠ ELFMAGIC) :
    verify_e_ident buffer = some (Except.error (ParseError.BadMagic (buffer.take 4))) := by
  rw [verify_e_ident]
  rw [if_neg (by simp only [EI_CLASS]; omega)]
  simp only [EI_CLASS]
  rw [if_pos hm]

/-- C1: for every buffer of at least 16 bytes whose first 4 bytes are not
`0x7F 'E' 'L' 'F'`, both `verify_e_ident` and `parse_elf_header_32` fail with
`BadMagic` carrying exactly those 4 bytes, whatever the remaining bytes are. -/
theorem verify_e_ident_bad_magic (buffer : List Nat)
    (h : 16 ≤ buffer.length) (hm : buffer.take 4 ≠ ELFMAGIC) :
    verify_e_ident buffer = some (Except.error (ParseError.BadMagic (buffer.take 4))) ∧
    parse_elf_header_32 buffer =
      some (Except.error (ParseError.BadMagic (buffer.take 4))) := by
  have htt : (buffer.take 16).take 4 = buffer.take 4 := by
    simp [List.take_take]
  refine ⟨verify_e_ident_bad_magic_aux buffer (by omega) hm, ?_⟩
  rw [parse_elf_header_32, if_neg (by simp only [EI_NIDENT]; omega)]
  simp only [EI_NIDENT]
  rw [parse_e_ident, verify_e_ident_bad_magic_aux (buffer.take 16)
    (by simp; omega) (by rw [htt]; exact hm), htt]

/-- Witness for C1: a 16-byte buffer starting with zeros. -/
theorem verify_e_ident_bad_magic_witness :
    verify_e_ident (List.replicate 16 0) =
      some (Except.error (ParseError.BadMagic ((List.replicate 16 0).take 4))) ∧
    parse_elf_header_32 (List.replicate 16 0) =
      some (Except.error (ParseError.BadMagic ((List.replicate 16 0).take 4))) :=
  verify_e_ident_bad_magic (List.replicate 16 0) (by decide) (by decide)

/-! ## Closed form of the file-header decode -/

/-- The value `u16::from_le_bytes` yields at offset `i`. -/
def le16at (b : List Nat) (i : Nat) : Nat := byte b i + 256 * byte b (i + 1)

/-- The value `u32::from_le_bytes` yields at offset `i`. -/
def le32at (b : List Nat) (i : Nat) : Nat :=
  byte b i + 256 * byte b (i + 1) + 65536 * byte b (i + 2) + 16777216 * byte b (i + 3)

theorem get_eq_byte (l : List Nat) (i : Nat) (h : i < l.length) :
    l.get ⟨i, h⟩ = byte l i := by
  induction l generalizing i with
  | nil => simp at h
  | cons a l ih =>
    cases i with
    | zero => rfl
    | succ i => exact ih i (by simpa using h)

theorem getElem_eq_byte (l : List Nat) (i : Nat) (h : i < l.length) :
    l[i] = byte l i := by
  induction l generalizing i with
  | nil => simp at h
  | cons a l ih =>
    cases i with
    | zero => rfl
    | succ i =>
      rw [List.getElem_cons_succ, byte_cons_succ]
      exact ih i (by simpa using h)

/-- On a post-identification region of at least 36 bytes, the field decode
reads each field at its exact ELF32 offset and width. -/
theorem parse_header_fields_eq (oa av : Nat) (r : List Nat) (h : 36 ≤ r.length) :
    parse_header_fields oa av r =
      (match fileTypeOfCode (le16at r 0) with
       | Except.error e => Except.error e
       | Except.ok ft => Except.ok
           { os_abi := oa, abi_version := av, file_type := ft,
             machine := le16at r 2,
             entry := le32at r 8,
             program_header_offset := le32at r 12,
             section_header_offset := le32at r 16,
             elf_header_size := le16at r 24,
             program_header_entry_size := le16at r 26,
             program_header_entries := le16at r 28,
             section_header_entry_size := le16at r 30,
             section_header_entries := le16at r 32,
             string_table_index := le16at r 34 }) := by
  have okTwo : (2:Nat) ≤ r.length := by omega
  have okFour : (4:Nat) ≤ r.length := by omega
  have okTwelve : (12:Nat) ≤ r.length := by omega
  have okSixteen : (16:Nat) ≤ r.length := by omega
  have okTwenty : (20:Nat) ≤ r.length := by omega
  have okTwSix : (26:Nat) ≤ r.length := by omega
  have okTwEight : (28:Nat) ≤ r.length := by omega
  have okThirty : (30:Nat) ≤ r.length := by omega
  have okThTwo : (32:Nat) ≤ r.length := by omega
  have okThFour : (34:Nat) ≤ r.length := by omega
  have okThSix : (36:Nat) ≤ r.length := by omega
  simp only [le16at, le32at]
  rcases hft : fileTypeOfCode (byte r 0 + 256 * byte r 1) with e | ft <;>
    simp [parse_header_fields, Parser.new, Parser.parse_u16, Parser.parse_u32,
      Parser.skip_u32, pbind, hft, okTwo, okFour, okTwelve, okSixteen, okTwenty,
      okTwSix, okTwEight, okThirty, okThTwo, okThFour, okThSix]

/-! ## C3: only the first 52 bytes matter -/

/-- C3: `parse_elf_header_32` reads fields only at the fixed ELF32 offsets
within the first 52 bytes (16-byte identification + 36 decoded bytes): two
buffers agreeing on bytes 0..51 produce identical results, success or
error. -/
theorem parse_elf_header_32_first_52 (b1 b2 : List Nat)
    (h1 : 52 ≤ b1.length) (h2 : 52 ≤ b2.length)
    (hag : b1.take 52 = b2.take 52) :
    parse_elf_header_32 b1 = parse_elf_header_32 b2 := by
  have h16 : b1.take 16 = b2.take 16 := by
    have h := congrArg (List.take 16) hag
    simpa [List.take_take] using h
  have hd : ∀ i, i < 36 → byte (b1.drop 16) i = byte (b2.drop 16) i := by
    intro i hi
    rw [byte_drop, byte_drop]
    exact byte_congr_of_take_eq hag (16 + i) (by omega)
  rw [parse_elf_header_32, parse_elf_header_32]
  rw [if_neg (by simp only [EI_NIDENT]; omega), if_neg (by simp only [EI_NIDENT]; omega)]
  simp only [EI_NIDENT]
  rw [h16]
  cases hpe : parse_e_ident (b2.take 16) with
  | none => rfl
  | some res =>
    cases res with
    | error e => rfl
    | ok pair =>
      obtain ⟨oa, av⟩ := pair
      simp only [parse_header_fields_eq oa av (b1.drop 16) (by rw [List.length_drop]; omega),
        parse_header_fields_eq oa av (b2.drop 16) (by rw [List.length_drop]; omega),
        le16at, le32at]
      simp [hd]

/-- The spec's §8 example: a minimal well-formed 52-byte ELF32 header. -/
def exampleHeaderBytes : List Nat :=
  [0x7F, 0x45, 0x4C, 0x46, 1, 1, 1, 0, 0, 0, 0, 0, 0, 0, 0, 0,
   2, 0, 3, 0, 1, 0, 0, 0,
   0x00, 0x80, 0x04, 0x08,
   52, 0, 0, 0,
   0, 0, 0, 0,
   0, 0, 0, 0,
   52, 0, 32, 0, 1, 0, 0, 0, 0, 0, 0, 0]

/-- Witness for C3: the example header, with and without a trailing byte. -/
theorem parse_elf_header_32_first_52_witness :
    parse_elf_header_32 exampleHeaderBytes =
      parse_elf_header_32 (exampleHeaderBytes ++ [99]) :=
  parse_elf_header_32_first_52 exampleHeaderBytes (exampleHeaderBytes ++ [99])
    (by decide) (by decide) (by decide)

/-! ## Closed form under a valid identification region -/

theorem verify_e_ident_valid (b : List Nat) (h : 7 ≤ b.length)
    (hm : b.take 4 = ELFMAGIC) (hc : byte b 4 = 1) (hd : byte b 5 = 1)
    (hv : byte b 6 = 1) :
    verify_e_ident b = some (Except.ok ()) := by
  have l1 : ¬ b.length < 4 := by omega
  have l2 : 4 < b.length := by omega
  have l3 : 5 < b.length := by omega
  have l4 : 6 < b.length := by omega
  simp [verify_e_ident, EI_CLASS, EI_DATA, EI_VERSION, ELFCLASS32, ELFDATA2LSB,
    EV_CURRENT, getElem_eq_byte, hm, hc, hd, hv, l1, l2, l3, l4]

theorem parse_e_ident_valid (b : List Nat) (h : 16 ≤ b.length)
    (hm : b.take 4 = ELFMAGIC) (hc : byte b 4 = 1) (hd : byte b 5 = 1)
    (hv : byte b 6 = 1) :
    parse_e_ident b = some (Except.ok (byte b 7, byte b 8)) := by
  rw [parse_e_ident, verify_e_ident_valid b (by omega) hm hc hd hv]
  simp [EI_OSABI, EI_ABIVERSION, getElem_eq_byte, (by omega : 7 < b.length),
    (by omega : 8 < b.length)]

/-- On any buffer of at least 52 bytes whose identification region is valid
(magic, ELF32 class, little-endian, current version), `parse_elf_header_32`
decodes every field at its exact absolute ELF32 offset. -/
theorem parse_elf_header_32_valid (b : List Nat) (h52 : 52 ≤ b.length)
    (hm : b.take 4 = ELFMAGIC) (hc : byte b 4 = 1) (hd : byte b 5 = 1)
    (hv : byte b 6 = 1) :
    parse_elf_header_32 b =
      some (match fileTypeOfCode (le16at b 16) with
        | Except.error e => Except.error e
        | Except.ok ft => Except.ok
            { os_abi := byte b 7, abi_version := byte b 8, file_type := ft,
              machine := le16at b 18,
              entry := le32at b 24,
              program_header_offset := le32at b 28,
              section_header_offset := le32at b 32,
              elf_header_size := le16at b 40,
              program_header_entry_size := le16at b 42,
              program_header_entries := le16at b 44,
              section_header_entry_size := le16at b 46,
              section_header_entries := le16at b 48,
              string_table_index := le16at b 50 }) := by
  have ht4 : (b.take 16).take 4 = b.take 4 := by simp [List.take_take]
  have htb : ∀ i, i < 16 → byte (b.take 16) i = byte b i := fun i hi => byte_take b 16 i hi
  rw [parse_elf_header_32, if_neg (by simp only [EI_NIDENT]; omega)]
  simp only [EI_NIDENT]
  rw [parse_e_ident_valid (b.take 16) (by rw [List.length_take]; omega)
    (by rw [ht4]; exact hm) (by rw [htb 4 (by omega)]; exact hc)
    (by rw [htb 5 (by omega)]; exact hd) (by rw [htb 6 (by omega)]; exact hv)]
  have hlen : 36 ≤ (b.drop 16).length := by rw [List.length_drop]; omega
  simp only [parse_header_fields_eq, hlen, htb 7 (by omega), htb 8 (by omega)]
  simp [le16at, le32at, byte_drop]

/-! ## C5: the file-type mapping is closed -/

theorem fileTypeOfCode_unknown (c : Nat) (h : 5 ≤ c) :
    fileTypeOfCode c = Except.error (ParseError.UnsupportedFileType c) := by
  match c, h with
  | (n+5), _ => rfl

/-- C5: the 2-byte file-type codes 0,1,2,3,4 map to None/Rel/Exec/Dyn/Core,
any other code makes `fileTypeOfCode` — and hence the decode of a buffer
whose file-type field holds such a code — fail with `UnsupportedFileType`
carrying the raw code. -/
theorem file_type_mapping :
    (fileTypeOfCode 0 = Except.ok FileType.None ∧
     fileTypeOfCode 1 = Except.ok FileType.Rel ∧
     fileTypeOfCode 2 = Except.ok FileType.Exec ∧
     fileTypeOfCode 3 = Except.ok FileType.Dyn ∧
     fileTypeOfCode 4 = Except.ok FileType.Core) ∧
    (∀ c, c ∉ ([0, 1, 2, 3, 4] : List Nat) →
      fileTypeOfCode c = Except.error (ParseError.UnsupportedFileType c)) ∧
    (∀ b, 52 ≤ b.length → b.take 4 = ELFMAGIC → byte b 4 = 1 → byte b 5 = 1 →
      byte b 6 = 1 → le16at b 16 ∉ ([0, 1, 2, 3, 4] : List Nat) →
      parse_elf_header_32 b =
        some (Except.error (ParseError.UnsupportedFileType (le16at b 16)))) := by
  refine ⟨⟨rfl, rfl, rfl, rfl, rfl⟩, ?_, ?_⟩
  · intro c hmem
    simp only [List.mem_cons, List.not_mem_nil, or_false, not_or] at hmem
    exact fileTypeOfCode_unknown c (by omega)
  · intro b h52 hm hc hd hv hft
    simp only [List.mem_cons, List.not_mem_nil, or_false, not_or] at hft
    rw [parse_elf_header_32_valid b h52 hm hc hd hv,
      fileTypeOfCode_unknown (le16at b 16) (by omega)]

/-- The example header with its file-type field replaced by code 7. -/
def badFileTypeBytes : List Nat :=
  [0x7F, 0x45, 0x4C, 0x46, 1, 1, 1, 0, 0, 0, 0, 0, 0, 0, 0, 0,
   7, 0, 3, 0, 1, 0, 0, 0,
   0x00, 0x80, 0x04, 0x08,
   52, 0, 0, 0,
   0, 0, 0, 0,
   0, 0, 0, 0,
   52, 0, 32, 0, 1, 0, 0, 0, 0, 0, 0, 0]

/-- Witness for C5: code 7 is rejected, both by the mapping and by the
decode of a buffer carrying it. -/
theorem file_type_mapping_witness :
    fileTypeOfCode 7 = Except.error (ParseError.UnsupportedFileType 7) ∧
    parse_elf_header_32 badFileTypeBytes =
      some (Except.error (ParseError.UnsupportedFileType 7)) :=
  ⟨file_type_mapping.2.1 7 (by decide),
   file_type_mapping.2.2 badFileTypeBytes (by decide) (by decide) (by decide)
     (by decide) (by decide) (by decide)⟩

/-! ## Program-header table decoding

The repository's sources declare the `ProgramHeader` record and render a
`program_header_table`, but the code that decodes the table is not among
them; it is modelled from the spec (§4.3): a fresh cursor at the declared
offset, and per entry a 4-byte type code mapped to the closed enumeration,
then six 4-byte fields and a 4-byte alignment — 32 bytes per entry; any
failure aborts the whole table. -/

/-- Modelled from the spec: the closed program-header type enumeration
{null, load, dynamic, interpreter, note, program-header-table-self-reference,
GNU-stack}, at their standard ELF on-disk codes; every other code is a hard
failure carrying the raw code. -/
def headerTypeOfCode (c : Nat) : Except ParseError HeaderType :=
  match c with
  | 0 => Except.ok HeaderType.Null
  | 1 => Except.ok HeaderType.Load
  | 2 => Except.ok HeaderType.Dynamic
  | 3 => Except.ok HeaderType.Interpreter
  | 4 => Except.ok HeaderType.Note
  | 6 => Except.ok HeaderType.ProgramHeaderTable
  | 0x6474E551 => Except.ok HeaderType.GnuStack
  | c => Except.error (ParseError.UnsupportedProgramHeaderType c)

/-- Modelled from the spec: decode one 32-byte program-header entry at the
cursor — type code, offset, virtual address, physical address, file size,
memory size, flags, alignment, all little-endian u32 reads. -/
def parse_program_header (p : Parser) : Except ParseError (ProgramHeader × Parser) :=
  pbind p.parse_u32 fun tc p1 =>
  match headerTypeOfCode tc with
  | Except.error e => Except.error e
  | Except.ok header_type =>
  pbind p1.parse_u32 fun offset p2 =>
  pbind p2.parse_u32 fun virtual_address p3 =>
  pbind p3.parse_u32 fun physical_address p4 =>
  pbind p4.parse_u32 fun size_in_file p5 =>
  pbind p5.parse_u32 fun size_in_memory p6 =>
  pbind p6.parse_u32 fun flags p7 =>
  pbind p7.parse_u32 fun alignment p8 =>
  Except.ok
    ({ header_type := header_type, offset := offset,
       virtual_address := virtual_address, physical_address := physical_address,
       size_in_file := size_in_file, size_in_memory := size_in_memory,
       flags := flags, alignment := alignment }, p8)

/-- Modelled from the spec: decode `count` entries in file order; any entry
failure aborts the whole decode. -/
def parse_program_header_table_go :
    Nat → Parser → Except ParseError (List ProgramHeader)
  | 0, _ => Except.ok []
  | Nat.succ n, p =>
    match parse_program_header p with
    | Except.error e => Except.error e
    | Except.ok (ph, p1) =>
      match parse_program_header_table_go n p1 with
      | Except.error e => Except.error e
      | Except.ok rest => Except.ok (ph :: rest)

/-- Modelled from the spec: position a fresh cursor at the declared offset
and decode the declared entry count. -/
def parse_program_header_table (buffer : List Nat) (off count : Nat) :
    Except ParseError (List ProgramHeader) :=
  parse_program_header_table_go count (Parser.mk off buffer)

/-! ## Synthetic buffer construction

Modelled from the spec's round-trip property: a synthetic byte buffer with
valid magic, ELF32 class, little-endian encoding, current version, and all
fields serialized at their specified offsets and widths in little-endian. -/

/-- The on-disk code of each `FileType` (inverse of `fileTypeOfCode`). -/
def fileTypeCode : FileType → Nat
  | FileType.None => 0
  | FileType.Rel => 1
  | FileType.Exec => 2
  | FileType.Dyn => 3
  | FileType.Core => 4

/-- The on-disk code of each `HeaderType` (inverse of `headerTypeOfCode`). -/
def headerTypeCode : HeaderType → Nat
  | HeaderType.Null => 0
  | HeaderType.Load => 1
  | HeaderType.Dynamic => 2
  | HeaderType.Interpreter => 3
  | HeaderType.Note => 4
  | HeaderType.ProgramHeaderTable => 6
  | HeaderType.GnuStack => 0x6474E551

/-- Little-endian serialization of a u16. -/
def le16bytes (v : Nat) : List Nat := [v % 256, v / 256 % 256]

/-- Little-endian serialization of a u32. -/
def le32bytes (v : Nat) : List Nat :=
  [v % 256, v / 256 % 256, v / 65536 % 256, v / 16777216 % 256]

/-- Modelled from the spec: the 52-byte synthetic ELF32 header buffer for a
`File Header` value — valid identification region (magic, class 1,
little-endian 1, version 1, the OS/ABI and ABI-version bytes, zero padding),
then each field at its ELF32 offset and width. -/
def encodeHeader (h : ElfHeader32) : List Nat :=
  [0x7F, 0x45, 0x4C, 0x46, 1, 1, 1, h.os_abi, h.abi_version, 0, 0, 0, 0, 0, 0, 0] ++
  le16bytes (fileTypeCode h.file_type) ++ le16bytes h.machine ++
  le32bytes 1 ++ le32bytes h.entry ++ le32bytes h.program_header_offset ++
  le32bytes h.section_header_offset ++ le32bytes 0 ++
  le16bytes h.elf_header_size ++ le16bytes h.program_header_entry_size ++
  le16bytes h.program_header_entries ++ le16bytes h.section_header_entry_size ++
  le16bytes h.section_header_entries ++ le16bytes h.string_table_index

/-- Modelled from the spec: the 32-byte synthetic buffer for one program
header entry. -/
def encodeProgramHeader (ph : ProgramHeader) : List Nat :=
  le32bytes (headerTypeCode ph.header_type) ++ le32bytes ph.offset ++
  le32bytes ph.virtual_address ++ le32bytes ph.physical_address ++
  le32bytes ph.size_in_file ++ le32bytes ph.size_in_memory ++
  le32bytes ph.flags ++ le32bytes ph.alignment

/-- Modelled from the spec: header followed immediately by the table. -/
def encodeElf (h : ElfHeader32) (phs : List ProgramHeader) : List Nat :=
  encodeHeader h ++ (phs.map encodeProgramHeader).flatten

/-- The fields of a `File Header` fit their ELF32 widths. -/
def ElfHeader32.wf (h : ElfHeader32) : Prop :=
  h.os_abi < 256 ∧ h.abi_version < 256 ∧ h.machine < 65536 ∧
  h.entry < 4294967296 ∧ h.program_header_offset < 4294967296 ∧
  h.section_header_offset < 4294967296 ∧ h.elf_header_size < 65536 ∧
  h.program_header_entry_size < 65536 ∧ h.program_header_entries < 65536 ∧
  h.section_header_entry_size < 65536 ∧ h.section_header_entries < 65536 ∧
  h.string_table_index < 65536

/-- The fields of a `Program Header Entry` fit their ELF32 widths. -/
def ProgramHeader.wf (ph : ProgramHeader) : Prop :=
  ph.offset < 4294967296 ∧ ph.virtual_address < 4294967296 ∧
  ph.physical_address < 4294967296 ∧ ph.size_in_file < 4294967296 ∧
  ph.size_in_memory < 4294967296 ∧ ph.flags < 4294967296 ∧
  ph.alignment < 4294967296

instance (H : ElfHeader32) : Decidable H.wf := by
  unfold ElfHeader32.wf; infer_instance

instance (ph : ProgramHeader) : Decidable ph.wf := by
  unfold ProgramHeader.wf; infer_instance

/-! ## C4: round-trip -/

theorem byte_append_left (l1 l2 : List Nat) (i : Nat) (h : i < l1.length) :
    byte (l1 ++ l2) i = byte l1 i := by
  induction l1 generalizing i with
  | nil => simp at h
  | cons a l1 ih =>
    cases i with
    | zero => rfl
    | succ i =>
      rw [List.cons_append, byte_cons_succ, byte_cons_succ]
      exact ih i (by simpa using h)

theorem byte_append_right0 (l1 l2 : List Nat) : byte (l1 ++ l2) l1.length = byte l2 0 := by
  simpa using byte_append_right l1 l2 0

theorem encodeHeader_length (H : ElfHeader32) : (encodeHeader H).length = 52 := by
  simp [encodeHeader, le16bytes, le32bytes]

set_option maxHeartbeats 1600000 in
/-- Decoding the synthetic header buffer (with anything appended after it)
recovers the original `File Header`. -/
theorem parse_encodeHeader (H : ElfHeader32) (rest : List Nat) (hwf : H.wf) :
    parse_elf_header_32 (encodeHeader H ++ rest) = some (Except.ok H) := by
  obtain ⟨oa, av, ft, mach, ent, pho, sho, ehs, phes, phn, shes, shn, sti⟩ := H
  obtain ⟨w1, w2, w3, w4, w5, w6, w7, w8, w9, w10, w11, w12⟩ := hwf
  dsimp only at w1 w2 w3 w4 w5 w6 w7 w8 w9 w10 w11 w12
  refine Eq.trans (parse_elf_header_32_valid _ ?_ ?_ ?_ ?_ ?_) ?_
  · simp [encodeHeader, le16bytes, le32bytes]
  · simp [encodeHeader, le16bytes, le32bytes, ELFMAGIC]
  · simp [byte, encodeHeader, le16bytes, le32bytes]
  · simp [byte, encodeHeader, le16bytes, le32bytes]
  · simp [byte, encodeHeader, le16bytes, le32bytes]
  · cases ft <;>
      simp [le16at, le32at, byte, encodeHeader, le16bytes, le32bytes, fileTypeCode,
        fileTypeOfCode] <;>
      omega

theorem headerTypeOfCode_code (ht : HeaderType) :
    headerTypeOfCode (headerTypeCode ht) = Except.ok ht := by
  cases ht <;> rfl

theorem headerTypeCode_lt (ht : HeaderType) : headerTypeCode ht < 4294967296 := by
  cases ht <;> decide

/-- Reading a u32 whose little-endian serialization sits exactly at the
cursor recovers the value. -/
theorem parse_u32_at (n : Nat) (pre : List Nat) (v : Nat) (post : List Nat)
    (hn : n = pre.length) (hv : v < 4294967296) :
    (Parser.mk n (pre ++ (le32bytes v ++ post))).parse_u32 =
      (Except.ok v, Parser.mk (n + 4) (pre ++ (le32bytes v ++ post))) := by
  subst hn
  have h4 : pre.length + 4 ≤ (pre ++ (le32bytes v ++ post)).length := by
    simp [le32bytes]
  simp only [Parser.parse_u32]
  rw [if_pos h4]
  rw [byte_append_right0, byte_append_right, byte_append_right, byte_append_right]
  show (Except.ok (v % 256 + 256 * (v / 256 % 256) + 65536 * (v / 65536 % 256) +
    16777216 * (v / 16777216 % 256)), Parser.mk (pre.length + 4) _) = _
  rw [show v % 256 + 256 * (v / 256 % 256) + 65536 * (v / 65536 % 256) +
    16777216 * (v / 16777216 % 256) = v from by omega]

theorem encodeProgramHeader_length (ph : ProgramHeader) :
    (encodeProgramHeader ph).length = 32 := by
  simp [encodeProgramHeader, le32bytes]

theorem parse_step {T : Type} (n : Nat) (P : List Nat) (v : Nat) (R : List Nat)
    (hn : n = P.length) (hv : v < 4294967296)
    (f : Nat → Parser → Except ParseError T) :
    pbind (Parser.mk n (P ++ (le32bytes v ++ R))).parse_u32 f =
      f v (Parser.mk (n + 4) (P ++ (le32bytes v ++ R))) := by
  rw [parse_u32_at n P v R hn hv]
  rfl

/-- Decoding the synthetic 32-byte entry buffer at the cursor recovers the
original entry and advances the cursor by exactly 32 bytes. -/
theorem parse_program_header_encode (n : Nat) (ph : ProgramHeader) (pre post : List Nat)
    (hn : n = pre.length) (hwf : ph.wf) :
    parse_program_header (Parser.mk n (pre ++ (encodeProgramHeader ph ++ post))) =
      Except.ok (ph, Parser.mk (n + 32) (pre ++ (encodeProgramHeader ph ++ post))) := by
  obtain ⟨ht, o, va, pa, fs, ms, fl, al⟩ := ph
  obtain ⟨v1, v2, v3, v4, v5, v6, v7⟩ := hwf
  dsimp only at v1 v2 v3 v4 v5 v6 v7
  simp only [encodeProgramHeader, List.append_assoc]
  rw [parse_program_header]
  rw [parse_step n pre (headerTypeCode ht) _ hn (headerTypeCode_lt ht)]
  rw [headerTypeOfCode_code]
  show pbind _ _ = _
  rw [← List.append_assoc]
  generalize hg2 : pre ++ le32bytes (headerTypeCode ht) = P2
  have hl2 : n + 4 = P2.length := by rw [← hg2]; simp [le32bytes]; omega
  rw [parse_step (n + 4) P2 o _ hl2 v1]
  rw [← List.append_assoc]
  generalize hg3 : P2 ++ le32bytes o = P3
  have hl3 : n + 4 + 4 = P3.length := by rw [← hg3]; simp [le32bytes]; omega
  rw [parse_step (n + 4 + 4) P3 va _ hl3 v2]
  rw [← List.append_assoc]
  generalize hg4 : P3 ++ le32bytes va = P4
  have hl4 : n + 4 + 4 + 4 = P4.length := by rw [← hg4]; simp [le32bytes]; omega
  rw [parse_step (n + 4 + 4 + 4) P4 pa _ hl4 v3]
  rw [← List.append_assoc]
  generalize hg5 : P4 ++ le32bytes pa = P5
  have hl5 : n + 4 + 4 + 4 + 4 = P5.length := by rw [← hg5]; simp [le32bytes]; omega
  rw [parse_step (n + 4 + 4 + 4 + 4) P5 fs _ hl5 v4]
  rw [← List.append_assoc]
  generalize hg6 : P5 ++ le32bytes fs = P6
  have hl6 : n + 4 + 4 + 4 + 4 + 4 = P6.length := by rw [← hg6]; simp [le32bytes]; omega
  rw [parse_step (n + 4 + 4 + 4 + 4 + 4) P6 ms _ hl6 v5]
  rw [← List.append_assoc]
  generalize hg7 : P6 ++ le32bytes ms = P7
  have hl7 : n + 4 + 4 + 4 + 4 + 4 + 4 = P7.length := by rw [← hg7]; simp [le32bytes]; omega
  rw [parse_step (n + 4 + 4 + 4 + 4 + 4 + 4) P7 fl _ hl7 v6]
  rw [← List.append_assoc]
  generalize hg8 : P7 ++ le32bytes fl = P8
  have hl8 : n + 4 + 4 + 4 + 4 + 4 + 4 + 4 = P8.length := by rw [← hg8]; simp [le32bytes]; omega
  rw [parse_step (n + 4 + 4 + 4 + 4 + 4 + 4 + 4) P8 al _ hl8 v7]

/-- Decoding a table of synthetic entries recovers the original list. -/
theorem parse_table_go_encode (phs : List ProgramHeader) (post : List Nat) :
    ∀ (n : Nat) (pre : List Nat), n = pre.length → (∀ ph ∈ phs, ph.wf) →
    parse_program_header_table_go phs.length
      (Parser.mk n (pre ++ ((phs.map encodeProgramHeader).flatten ++ post))) =
      Except.ok phs := by
  induction phs with
  | nil => intro n pre hn hwf; rfl
  | cons ph rest ih =>
    intro n pre hn hwf
    simp only [List.map_cons, List.flatten_cons, List.length_cons, List.append_assoc]
    simp only [parse_program_header_table_go]
    rw [parse_program_header_encode n ph pre _ hn (hwf ph (by simp))]
    dsimp only
    rw [← List.append_assoc]
    generalize hg : pre ++ encodeProgramHeader ph = P
    have hl : n + 32 = P.length := by
      rw [← hg]; simp [encodeProgramHeader_length, hn]
    rw [ih (n + 32) P hl (fun q hq => hwf q (by simp [hq]))]

/-- C4: round-trip — encoding any in-range `File Header` whose declared
program-header offset is 52 and declared entry count matches, together with
any list of in-range `Program Header Entries`, into the synthetic byte buffer
and decoding it back yields field-for-field the original values. -/
theorem elf_roundtrip (H : ElfHeader32) (phs : List ProgramHeader)
    (hwf : H.wf) (hphs : ∀ ph ∈ phs, ph.wf)
    (hoff : H.program_header_offset = 52)
    (hcnt : H.program_header_entries = phs.length) :
    parse_elf_header_32 (encodeElf H phs) = some (Except.ok H) ∧
    parse_program_header_table (encodeElf H phs) H.program_header_offset
      H.program_header_entries = Except.ok phs := by
  constructor
  · rw [encodeElf]
    exact parse_encodeHeader H _ hwf
  · rw [encodeElf, parse_program_header_table, hoff, hcnt]
    rw [show (phs.map encodeProgramHeader).flatten =
      (phs.map encodeProgramHeader).flatten ++ [] from (List.append_nil _).symm]
    exact parse_table_go_encode phs [] 52 (encodeHeader H) (encodeHeader_length H).symm hphs

/-- The spec's §8 example header, as a record. -/
def exampleHeader : ElfHeader32 :=
  { os_abi := 0, abi_version := 0, file_type := FileType.Exec, machine := 3,
    entry := 0x08048000, program_header_offset := 52, section_header_offset := 0,
    elf_header_size := 52, program_header_entry_size := 32,
    program_header_entries := 1, section_header_entry_size := 0,
    section_header_entries := 0, string_table_index := 0 }

/-- The spec's §8 example load segment. -/
def examplePh : ProgramHeader :=
  { header_type := HeaderType.Load, offset := 0, virtual_address := 0x08048000,
    physical_address := 0x08048000, size_in_file := 0x100, size_in_memory := 0x100,
    flags := 5, alignment := 0x1000 }

/-- Witness for C4: the spec's §8 example round-trips. -/
theorem elf_roundtrip_witness :
    parse_elf_header_32 (encodeElf exampleHeader [examplePh]) =
      some (Except.ok exampleHeader) ∧
    parse_program_header_table (encodeElf exampleHeader [examplePh])
      exampleHeader.program_header_offset exampleHeader.program_header_entries =
      Except.ok [examplePh] :=
  elf_roundtrip exampleHeader [examplePh] (by decide)
    (by intro ph hph; simp only [List.mem_singleton] at hph; subst hph; decide)
    (by decide) (by decide)

/-! ## C7: little-endian reads, bounds errors, truncation -/

def readLE : List Nat → Nat
  | [] => 0
  | b :: rest => b + 256 * readLE rest

theorem byte_oob (l : List Nat) (i : Nat) (h : l.length ≤ i) : byte l i = 0 :=
  List.getD_eq_default l 0 h

theorem drop_byte_cons (l : List Nat) (s : Nat) (h : s < l.length) :
    l.drop s = byte l s :: l.drop (s + 1) := by
  induction l generalizing s with
  | nil => simp at h
  | cons a l ih =>
    cases s with
    | zero => rfl
    | succ s =>
      show l.drop s = byte (a :: l) (s + 1) :: (a :: l).drop (s + 1 + 1)
      rw [byte_cons_succ, List.drop_succ_cons]
      exact ih s (by simpa using h)

theorem readLE_two (l : List Nat) (s : Nat) (h : s + 2 ≤ l.length) :
    readLE ((l.drop s).take 2) = byte l s + 256 * byte l (s + 1) := by
  rw [drop_byte_cons l s (by omega), drop_byte_cons l (s + 1) (by omega)]
  simp [readLE]

theorem readLE_four (l : List Nat) (s : Nat) (h : s + 4 ≤ l.length) :
    readLE ((l.drop s).take 4) = byte l s + 256 * byte l (s + 1) +
      65536 * byte l (s + 2) + 16777216 * byte l (s + 3) := by
  rw [drop_byte_cons l s (by omega), drop_byte_cons l (s + 1) (by omega),
    drop_byte_cons l (s + 2) (by omega), drop_byte_cons l (s + 3) (by omega)]
  simp [readLE]
  ring

def headerFieldLayout : List (Nat × Nat) :=
  [(0, 2), (2, 2), (8, 4), (12, 4), (16, 4), (24, 2), (26, 2), (28, 2), (30, 2),
    (32, 2), (34, 2)]

theorem parse_elf_header_32_ident (b : List Nat) (h16 : 16 ≤ b.length)
    (hm : b.take 4 = ELFMAGIC) (hc : byte b 4 = 1) (hd : byte b 5 = 1)
    (hv : byte b 6 = 1) :
    parse_elf_header_32 b =
      some (parse_header_fields (byte b 7) (byte b 8) (b.drop 16)) := by
  have ht4 : (b.take 16).take 4 = b.take 4 := by rw [List.take_take]; norm_num
  have htb : ∀ i, i < 16 → byte (b.take 16) i = byte b i := fun i hi => byte_take b 16 i hi
  rw [parse_elf_header_32, if_neg (by simp only [EI_NIDENT]; omega)]
  simp only [EI_NIDENT]
  rw [parse_e_ident_valid (b.take 16) (by rw [List.length_take]; omega)
    (by rw [ht4]; exact hm) (by rw [htb 4 (by omega)]; exact hc)
    (by rw [htb 5 (by omega)]; exact hd) (by rw [htb 6 (by omega)]; exact hv)]
  rw [htb 7 (by omega), htb 8 (by omega)]

theorem parse_header_fields_truncated (oa av : Nat) (r : List Nat) (ft : FileType)
    (hft : fileTypeOfCode (byte r 0 + 256 * byte r 1) = Except.ok ft) :
    ∀ sw ∈ headerFieldLayout, r.length = sw.1 + sw.2 - 1 →
      parse_header_fields oa av r =
        Except.error (ParseError.SliceReadError sw.1 (sw.1 + sw.2)) := by
  intro sw hsw hlen
  fin_cases hsw <;>
    simp only at hlen <;>
    simp [parse_header_fields, Parser.new, Parser.parse_u16, Parser.parse_u32,
      Parser.skip_u32, pbind, hft, hlen]


theorem parse_truncated_encode (H : ElfHeader32) (s w : Nat)
    (hsw : (s, w) ∈ headerFieldLayout) :
    parse_elf_header_32 ((encodeHeader H).take (16 + s + w - 1)) =
      some (Except.error (ParseError.SliceReadError s (s + w))) := by
  have hall : ∀ q ∈ headerFieldLayout, 2 ≤ q.2 ∧ 2 ≤ q.1 + q.2 ∧ q.1 + q.2 ≤ 36 := by
    decide
  obtain ⟨hw2, hsw2, hsw36⟩ := hall (s, w) hsw
  have hEl : (encodeHeader H).length = 52 := encodeHeader_length H
  have hlenN : ((encodeHeader H).take (16 + s + w - 1)).length = 16 + s + w - 1 := by
    rw [List.length_take, hEl]; omega
  have hbt : ∀ i, i < 16 + s + w - 1 →
      byte ((encodeHeader H).take (16 + s + w - 1)) i = byte (encodeHeader H) i :=
    fun i hi => byte_take _ _ i hi
  have e4 : byte (encodeHeader H) 4 = 1 := by simp [byte, encodeHeader, le16bytes, le32bytes]
  have e5 : byte (encodeHeader H) 5 = 1 := by simp [byte, encodeHeader, le16bytes, le32bytes]
  have e6 : byte (encodeHeader H) 6 = 1 := by simp [byte, encodeHeader, le16bytes, le32bytes]
  have e16 : byte (encodeHeader H) 16 = fileTypeCode H.file_type % 256 := by
    simp [byte, encodeHeader, le16bytes, le32bytes]
  have e17 : byte (encodeHeader H) 17 = fileTypeCode H.file_type / 256 % 256 := by
    simp [byte, encodeHeader, le16bytes, le32bytes]
  have hcode : fileTypeCode H.file_type < 5 := by cases H.file_type <;> decide
  have et4 : (encodeHeader H).take 4 = ELFMAGIC := by
    simp [encodeHeader, ELFMAGIC, le16bytes, le32bytes]
  rw [parse_elf_header_32_ident _ (by omega)
    (by rw [List.take_take, show min 4 (16 + s + w - 1) = 4 from by omega, et4])
    (by rw [hbt 4 (by omega)]; exact e4)
    (by rw [hbt 5 (by omega)]; exact e5)
    (by rw [hbt 6 (by omega)]; exact e6)]
  have hr0 : byte (((encodeHeader H).take (16 + s + w - 1)).drop 16) 0 =
      fileTypeCode H.file_type % 256 := by
    rw [byte_drop]
    exact Eq.trans (hbt 16 (by omega)) e16
  have hr1 : byte (((encodeHeader H).take (16 + s + w - 1)).drop 16) 1 = 0 := by
    rw [byte_drop]
    show byte ((encodeHeader H).take (16 + s + w - 1)) 17 = 0
    rcases Nat.lt_or_ge 17 (16 + s + w - 1) with h | h
    · rw [hbt 17 h, e17]
      omega
    · exact byte_oob _ _ (by omega)
  have hft : fileTypeOfCode
      (byte (((encodeHeader H).take (16 + s + w - 1)).drop 16) 0 +
        256 * byte (((encodeHeader H).take (16 + s + w - 1)).drop 16) 1) =
      Except.ok H.file_type := by
    rw [hr0, hr1, show fileTypeCode H.file_type % 256 + 256 * 0 =
      fileTypeCode H.file_type from by omega]
    cases H.file_type <;> rfl
  rw [parse_header_fields_truncated _ _ _ H.file_type hft (s, w) hsw
    (by rw [List.length_drop, hlenN]; omega)]


theorem headerTypeOfCode_unknown (c : Nat)
    (h : c ∉ ([0, 1, 2, 3, 4, 6, 1685382481] : List Nat)) :
    headerTypeOfCode c = Except.error (ParseError.UnsupportedProgramHeaderType c) := by
  simp only [List.mem_cons, List.not_mem_nil, or_false, not_or] at h
  obtain ⟨h0, h1, h2, h3, h4, h6, hg⟩ := h
  unfold headerTypeOfCode
  split <;> first | rfl | omega

theorem parse_u32_ok_le32at (p : Parser) (h : p.offset + 4 ≤ p.buffer.length) :
    p.parse_u32 = (Except.ok (le32at p.buffer p.offset),
      Parser.mk (p.offset + 4) p.buffer) := by
  simp only [Parser.parse_u32, le32at]
  rw [if_pos h]

theorem parse_program_header_unknown (p : Parser)
    (hb : p.offset + 4 ≤ p.buffer.length)
    (hcode : le32at p.buffer p.offset ∉ ([0, 1, 2, 3, 4, 6, 1685382481] : List Nat)) :
    parse_program_header p =
      Except.error (ParseError.UnsupportedProgramHeaderType (le32at p.buffer p.offset)) := by
  rw [parse_program_header, parse_u32_ok_le32at p hb]
  show (match headerTypeOfCode (le32at p.buffer p.offset) with
    | Except.error e => Except.error e
    | Except.ok header_type => _) = _
  rw [headerTypeOfCode_unknown _ hcode]


theorem parse_u32_state (p : Parser) :
    p.parse_u32 = (Except.ok (le32at p.buffer p.offset),
      Parser.mk (p.offset + 4) p.buffer) ∨
    p.parse_u32 = (Except.error (ParseError.SliceReadError p.offset (p.offset + 4)), p) := by
  simp only [Parser.parse_u32, le32at]
  by_cases h : p.offset + 4 ≤ p.buffer.length
  · left; rw [if_pos h]
  · right; rw [if_neg h]

theorem pbind_u32_inv {T : Type} (q : Parser) (f : Nat → Parser → Except ParseError T)
    (out : T) (h : pbind q.parse_u32 f = Except.ok out) :
    f (le32at q.buffer q.offset) (Parser.mk (q.offset + 4) q.buffer) = Except.ok out := by
  rcases parse_u32_state q with h1 | h1 <;> rw [h1] at h
  · exact h
  · exact Except.noConfusion h

theorem parse_program_header_ok_inv (p : Parser) (ph : ProgramHeader) (p' : Parser)
    (h : parse_program_header p = Except.ok (ph, p')) :
    p' = Parser.mk (p.offset + 32) p.buffer ∧
    headerTypeOfCode (le32at p.buffer p.offset) = Except.ok ph.header_type := by
  rw [parse_program_header] at h
  replace h := pbind_u32_inv _ _ _ h
  try dsimp only at h
  cases hht : headerTypeOfCode (le32at p.buffer p.offset) with
  | error e => rw [hht] at h; exact Except.noConfusion h
  | ok ht =>
    rw [hht] at h
    replace h := pbind_u32_inv _ _ _ h
    try dsimp only at h
    replace h := pbind_u32_inv _ _ _ h
    try dsimp only at h
    replace h := pbind_u32_inv _ _ _ h
    try dsimp only at h
    replace h := pbind_u32_inv _ _ _ h
    try dsimp only at h
    replace h := pbind_u32_inv _ _ _ h
    try dsimp only at h
    replace h := pbind_u32_inv _ _ _ h
    try dsimp only at h
    replace h := pbind_u32_inv _ _ _ h
    try dsimp only at h
    injection h with h1
    injection h1 with h2 h3
    subst h2
    subst h3
    exact ⟨rfl, rfl⟩


/-- C7: every multi-byte read interprets its bytes little-endian (the value
is `readLE` of the requested slice); a read extending past the buffer end
fails with `SliceReadError` carrying the requested `[start, start+width)`
range; and truncating the well-formed synthetic header buffer to end 1 byte
before any multi-byte field completes yields a bounds error whose reported
range starts at that field's offset in the post-identification region. -/
theorem little_endian_and_bounds (p : Parser) :
    (p.offset + 2 ≤ p.buffer.length →
      p.parse_u16 = (Except.ok (readLE ((p.buffer.drop p.offset).take 2)),
        Parser.mk (p.offset + 2) p.buffer)) ∧
    (p.offset + 4 ≤ p.buffer.length →
      p.parse_u32 = (Except.ok (readLE ((p.buffer.drop p.offset).take 4)),
        Parser.mk (p.offset + 4) p.buffer)) ∧
    (p.buffer.length < p.offset + 2 →
      p.parse_u16 = (Except.error (ParseError.SliceReadError p.offset (p.offset + 2)), p)) ∧
    (p.buffer.length < p.offset + 4 →
      p.parse_u32 = (Except.error (ParseError.SliceReadError p.offset (p.offset + 4)), p)) ∧
    (∀ (H : ElfHeader32) (sw : Nat × Nat), sw ∈ headerFieldLayout →
      parse_elf_header_32 ((encodeHeader H).take (16 + sw.1 + sw.2 - 1)) =
        some (Except.error (ParseError.SliceReadError sw.1 (sw.1 + sw.2)))) := by
  refine ⟨fun h => ?_, fun h => ?_, fun h => ?_, fun h => ?_,
    fun H sw hsw => parse_truncated_encode H sw.1 sw.2 hsw⟩
  · rw [readLE_two p.buffer p.offset h]
    simp only [Parser.parse_u16]
    rw [if_pos h]
  · rw [readLE_four p.buffer p.offset h]
    simp only [Parser.parse_u32]
    rw [if_pos h]
  · simp only [Parser.parse_u16]
    rw [if_neg (by omega)]
  · simp only [Parser.parse_u32]
    rw [if_neg (by omega)]

/-- Witness for C7: a 2-byte read at a concrete cursor, a failing read with
its range, and the truncation of the example header inside its machine
field. -/
theorem little_endian_and_bounds_witness :
    (Parser.mk 0 [7, 3]).parse_u16 =
      (Except.ok (readLE ((([7, 3] : List Nat).drop 0).take 2)), Parser.mk 2 [7, 3]) ∧
    (Parser.mk 1 [0, 9]).parse_u16 =
      (Except.error (ParseError.SliceReadError 1 3), Parser.mk 1 [0, 9]) ∧
    parse_elf_header_32 ((encodeHeader exampleHeader).take 19) =
      some (Except.error (ParseError.SliceReadError 2 4)) :=
  ⟨(little_endian_and_bounds (Parser.mk 0 [7, 3])).1 (by decide),
   (little_endian_and_bounds (Parser.mk 1 [0, 9])).2.2.1 (by decide),
   (little_endian_and_bounds (Parser.mk 0 [])).2.2.2.2 exampleHeader (2, 2) (by decide)⟩

theorem parse_table_go_unknown (buf : List Nat) :
    ∀ (n : Nat) (i : Nat) (p : Parser), p.buffer = buf → i < n →
      le32at buf (p.offset + 32 * i) ∉ ([0, 1, 2, 3, 4, 6, 1685382481] : List Nat) →
      ∀ l, parse_program_header_table_go n p ≠ Except.ok l := by
  intro n
  induction n with
  | zero => intro i p _ hi; omega
  | succ n ih =>
    intro i p hbuf hi hcode l h
    rw [parse_program_header_table_go] at h
    cases hph : parse_program_header p with
    | error e => rw [hph] at h; exact Except.noConfusion h
    | ok pair =>
      obtain ⟨ph, p1⟩ := pair
      rw [hph] at h
      obtain ⟨hp1, hht⟩ := parse_program_header_ok_inv p ph p1 hph
      cases i with
      | zero =>
        rw [hbuf] at hht
        rw [headerTypeOfCode_unknown _ (by simpa using hcode)] at hht
        exact Except.noConfusion hht
      | succ i =>
        dsimp only at h
        cases hgo : parse_program_header_table_go n p1 with
        | error e => rw [hgo] at h; exact Except.noConfusion h
        | ok rest =>
          refine ih i p1 ?_ (by omega) ?_ rest hgo
          · rw [hp1, hbuf]
          · rw [hp1]
            show le32at buf (p.offset + 32 + 32 * i) ∉ _
            have harith : p.offset + 32 + 32 * i = p.offset + 32 * (i + 1) := by ring
            rw [harith]
            exact hcode

/-- C8: if any entry of the declared table — not necessarily the first —
carries a type code outside the seven known codes, the whole table decode
fails: no entry list whatsoever is returned. -/
theorem program_header_table_rejects_unknown (buf : List Nat) (off count i : Nat)
    (hi : i < count) (_hb : off + 32 * i + 4 ≤ buf.length)
    (hcode : le32at buf (off + 32 * i) ∉ ([0, 1, 2, 3, 4, 6, 1685382481] : List Nat)) :
    ∀ l, parse_program_header_table buf off count ≠ Except.ok l := by
  intro l
  rw [parse_program_header_table]
  exact parse_table_go_unknown buf count i (Parser.mk off buf) rfl hi hcode l

/-- A 2-entry table buffer whose second entry has the unknown type code 5. -/
def c8Buffer : List Nat :=
  encodeProgramHeader examplePh ++ (le32bytes 5 ++ List.replicate 28 0)

/-- Witness for C8: with the bad code in the second entry, the decode of the
2-entry table is not any `Except.ok`. -/
theorem program_header_table_rejects_unknown_witness :
    parse_program_header_table c8Buffer 0 2 ≠ Except.ok [] :=
  program_header_table_rejects_unknown c8Buffer 0 2 1 (by decide) (by decide) (by decide) []


/-! ## C9: program-header row rendering (src/elf.rs, `print_program_header_table`)

The row data is built with the Rust format string
`"{:#08X} {:#010X} {:#010X} {:#07X} {:#07X} {:#03X} {:#06X}"`: the `#`
alternate flag prints a lowercase `0x` prefix that counts toward the
minimum width, `0` zero-fills between the prefix and the uppercase hex
digits.  The type column is `format!("{:?}", ph.header_type)` (the variant
name), padded with spaces to 6 more than the longest first-column width of
all rows, the `("Type", ...)` heading row included. -/

def hexDigitChar (n : Nat) : Char :=
  if n < 10 then Char.ofNat (48 + n) else Char.ofNat (55 + n)

def hexCharsGo : Nat → Nat → List Char
  | _, 0 => []
  | 0, _ + 1 => []
  | f + 1, v + 1 => hexCharsGo f ((v + 1) / 16) ++ [hexDigitChar ((v + 1) % 16)]

def hexUpper (v : Nat) : String :=
  if v = 0 then "0" else String.mk (hexCharsGo v v)

def rustHexAlt (width v : Nat) : String :=
  "0x" ++ String.mk (List.replicate (width - ((hexUpper v).data.length + 2)) '0') ++
    hexUpper v

def headerTypeName : HeaderType → String
  | HeaderType.Null => "Null"
  | HeaderType.Load => "Load"
  | HeaderType.Dynamic => "Dynamic"
  | HeaderType.Interpreter => "Interpreter"
  | HeaderType.Note => "Note"
  | HeaderType.ProgramHeaderTable => "ProgramHeaderTable"
  | HeaderType.GnuStack => "GnuStack"

def formatProgramHeaderData (ph : ProgramHeader) : String :=
  rustHexAlt 8 ph.offset ++ " " ++ rustHexAlt 10 ph.virtual_address ++ " " ++
  rustHexAlt 10 ph.physical_address ++ " " ++ rustHexAlt 7 ph.size_in_file ++ " " ++
  rustHexAlt 7 ph.size_in_memory ++ " " ++ rustHexAlt 3 ph.flags ++ " " ++
  rustHexAlt 6 ph.alignment

def programHeaderRows (phs : List ProgramHeader) : List (String × String) :=
  ("Type", "Offset   VirtAddr   PhysAddr   FileSiz MemSiz  Flg Align") ::
    phs.map (fun ph => (headerTypeName ph.header_type, formatProgramHeaderData ph))

def headerTypePadding (phs : List ProgramHeader) : Nat :=
  ((programHeaderRows phs).map (fun r => r.1.length)).foldr Nat.max 0 + 6

def renderRow (padWidth : Nat) (row : String × String) : String :=
  row.1 ++ String.mk (List.replicate (padWidth - row.1.length) ' ') ++ row.2

def renderedRows (phs : List ProgramHeader) : List String :=
  (programHeaderRows phs).map (renderRow (headerTypePadding phs))

def printProgramHeaderTableLines (phs : List ProgramHeader) : List String :=
  "Program Headers:" :: renderedRows phs

def isUpperHexDigit (c : Char) : Bool :=
  c.isDigit || ('A' ≤ c && c ≤ 'F')

def isRustHexField (w : Nat) (s : String) : Bool :=
  (s.data.length == w) && (s.data.take 2 == ['0', 'x']) &&
    (s.data.drop 2).all isUpperHexDigit

def phDefault : ProgramHeader :=
  { header_type := HeaderType.Null, offset := 0, virtual_address := 0,
    physical_address := 0, size_in_file := 0, size_in_memory := 0, flags := 0,
    alignment := 0 }

def phRanges (ph : ProgramHeader) : Prop :=
  ph.offset < 16 ^ 6 ∧ ph.virtual_address < 16 ^ 8 ∧ ph.physical_address < 16 ^ 8 ∧
  ph.size_in_file < 16 ^ 5 ∧ ph.size_in_memory < 16 ^ 5 ∧ ph.flags < 16 ^ 1 ∧
  ph.alignment < 16 ^ 4

instance (ph : ProgramHeader) : Decidable (phRanges ph) := by
  unfold phRanges; infer_instance

theorem hexCharsGo_len : ∀ f v n, v ≤ f → v < 16 ^ n → (hexCharsGo f v).length ≤ n := by
  intro f
  induction f with
  | zero =>
    intro v n hv _
    cases v with
    | zero => simp [hexCharsGo]
    | succ v => omega
  | succ f ih =>
    intro v n hv hlt
    cases v with
    | zero => simp [hexCharsGo]
    | succ v =>
      cases n with
      | zero => simp at hlt
      | succ n =>
        show (hexCharsGo f ((v + 1) / 16) ++ [hexDigitChar ((v + 1) % 16)]).length ≤ n + 1
        rw [List.length_append]
        have h1 : (v + 1) / 16 ≤ f := by omega
        have h2 : (v + 1) / 16 < 16 ^ n := by
          rw [Nat.div_lt_iff_lt_mul (by omega : 0 < 16)]
          calc v + 1 < 16 ^ (n + 1) := hlt
          _ = 16 ^ n * 16 := by rw [Nat.pow_succ]
        have := ih ((v + 1) / 16) n h1 h2
        simp only [List.length_cons, List.length_nil]
        omega

theorem hexCharsGo_upper : ∀ f v, (hexCharsGo f v).all isUpperHexDigit = true := by
  have hd : ∀ d, d < 16 → isUpperHexDigit (hexDigitChar d) = true := by decide
  intro f
  induction f with
  | zero => intro v; cases v <;> rfl
  | succ f ih =>
    intro v
    cases v with
    | zero => rfl
    | succ v =>
      show (hexCharsGo f ((v + 1) / 16) ++ [hexDigitChar ((v + 1) % 16)]).all _ = true
      rw [List.all_append, ih]
      simp [hd ((v + 1) % 16) (Nat.mod_lt _ (by omega))]

theorem hexUpper_len (v n : Nat) (h1 : 1 ≤ n) (h : v < 16 ^ n) :
    (hexUpper v).data.length ≤ n := by
  unfold hexUpper
  split
  · simpa using h1
  · exact hexCharsGo_len v v n le_rfl h

theorem hexUpper_upper (v : Nat) : (hexUpper v).data.all isUpperHexDigit = true := by
  unfold hexUpper
  split
  · rfl
  · exact hexCharsGo_upper v v

theorem rustHexAlt_field (w v : Nat) (h3 : 3 ≤ w) (h : v < 16 ^ (w - 2)) :
    isRustHexField w (rustHexAlt w v) = true := by
  have hlen : (hexUpper v).data.length ≤ w - 2 := hexUpper_len v (w - 2) (by omega) h
  have hup := hexUpper_upper v
  have hdata : (rustHexAlt w v).data =
      '0' :: 'x' :: (List.replicate (w - ((hexUpper v).data.length + 2)) '0' ++
        (hexUpper v).data) := rfl
  unfold isRustHexField
  rw [hdata]
  simp only [Bool.and_eq_true, beq_iff_eq]
  refine ⟨⟨?_, ?_⟩, ?_⟩
  · simp only [List.length_cons, List.length_append, List.length_replicate]
    omega
  · rfl
  · show (List.replicate (w - ((hexUpper v).data.length + 2)) '0' ++
      (hexUpper v).data).all isUpperHexDigit = true
    rw [List.all_append, Bool.and_eq_true]
    refine ⟨?_, hup⟩
    rw [List.all_eq_true]
    intro x hx
    rw [(List.mem_replicate.mp hx).2]
    rfl


theorem getD_map_lt {α β : Type} (l : List α) (f : α → β) (i : Nat) (d : α) (d' : β)
    (hi : i < l.length) : (l.map f).getD i d' = f (l.getD i d) := by
  induction l generalizing i with
  | nil => simp at hi
  | cons a l ih =>
    cases i with
    | zero => rfl
    | succ i =>
      simp only [List.map_cons, List.getD_cons_succ]
      exact ih i (by simpa using hi)

/-- C9 as stated fails on the code: for the single Load entry of the spec's
example, the rendered offset field is the 8-character string `0x000000` —
six hex digits behind a `0x` prefix, not 8 hexadecimal digits — and the
rendered row is not the type name padded merely to the longest type-name
width among the present entries (that would leave `Load` unpadded; the code
pads 6 beyond the longest first column including the `Type` heading). -/
theorem program_header_rendering_cex :
    ((formatProgramHeaderData examplePh).data.take 8 = ("0x000000" : String).data ∧
      ("0x000000" : String).data.all isUpperHexDigit = false) ∧
    (renderedRows [examplePh]).getD 1 "" ≠
      headerTypeName examplePh.header_type ++ formatProgramHeaderData examplePh := by
  decide

/-- C9 (amended): each decoded entry's row shows the type name left-aligned,
space-padded to 6 more than the longest first-column width (the `Type`
heading included), followed by the fields as fixed total-character-width
hexadecimal — a lowercase `0x` prefix, zero filling, then uppercase hex
digits — at widths 8 (offset), 10 (addresses), 7 (sizes), 3 (flags) and
6 (alignment), prefix included. -/
theorem program_header_rendering (phs : List ProgramHeader) (i : Nat)
    (hi : i < phs.length) (hr : phRanges (phs.getD i phDefault)) :
    (renderedRows phs).getD (i + 1) "" =
      headerTypeName (phs.getD i phDefault).header_type ++
        String.mk (List.replicate (headerTypePadding phs -
          (headerTypeName (phs.getD i phDefault).header_type).length) ' ') ++
        formatProgramHeaderData (phs.getD i phDefault) ∧
    headerTypePadding phs =
      Nat.max ("Type" : String).length
        ((phs.map (fun ph => (headerTypeName ph.header_type).length)).foldr Nat.max 0)
        + 6 ∧
    isRustHexField 8 (rustHexAlt 8 (phs.getD i phDefault).offset) = true ∧
    isRustHexField 10 (rustHexAlt 10 (phs.getD i phDefault).virtual_address) = true ∧
    isRustHexField 10 (rustHexAlt 10 (phs.getD i phDefault).physical_address) = true ∧
    isRustHexField 7 (rustHexAlt 7 (phs.getD i phDefault).size_in_file) = true ∧
    isRustHexField 7 (rustHexAlt 7 (phs.getD i phDefault).size_in_memory) = true ∧
    isRustHexField 3 (rustHexAlt 3 (phs.getD i phDefault).flags) = true ∧
    isRustHexField 6 (rustHexAlt 6 (phs.getD i phDefault).alignment) = true := by
  obtain ⟨r1, r2, r3, r4, r5, r6, r7⟩ := hr
  refine ⟨?_, ?_, rustHexAlt_field 8 _ (by omega) r1, rustHexAlt_field 10 _ (by omega) r2,
    rustHexAlt_field 10 _ (by omega) r3, rustHexAlt_field 7 _ (by omega) r4,
    rustHexAlt_field 7 _ (by omega) r5, rustHexAlt_field 3 _ (by omega) r6,
    rustHexAlt_field 6 _ (by omega) r7⟩
  · show ((programHeaderRows phs).map (renderRow (headerTypePadding phs))).getD (i + 1) "" = _
    simp only [programHeaderRows, List.map_cons, List.getD_cons_succ, List.map_map]
    rw [getD_map_lt phs _ i phDefault "" hi]
    rfl
  · simp only [headerTypePadding, programHeaderRows, List.map_cons, List.foldr_cons,
      List.map_map]
    rfl

/-- Witness for amended C9: the example Load entry's rendered row. -/
theorem program_header_rendering_witness :
    (renderedRows [examplePh]).getD 1 "" =
      headerTypeName ([examplePh].getD 0 phDefault).header_type ++
        String.mk (List.replicate (headerTypePadding [examplePh] -
          (headerTypeName ([examplePh].getD 0 phDefault).header_type).length) ' ') ++
        formatProgramHeaderData ([examplePh].getD 0 phDefault) ∧
    headerTypePadding [examplePh] =
      Nat.max ("Type" : String).length
        (([examplePh].map (fun ph => (headerTypeName ph.header_type).length)).foldr
          Nat.max 0) + 6 ∧
    isRustHexField 8 (rustHexAlt 8 ([examplePh].getD 0 phDefault).offset) = true ∧
    isRustHexField 10 (rustHexAlt 10 ([examplePh].getD 0 phDefault).virtual_address) = true ∧
    isRustHexField 10 (rustHexAlt 10 ([examplePh].getD 0 phDefault).physical_address) = true ∧
    isRustHexField 7 (rustHexAlt 7 ([examplePh].getD 0 phDefault).size_in_file) = true ∧
    isRustHexField 7 (rustHexAlt 7 ([examplePh].getD 0 phDefault).size_in_memory) = true ∧
    isRustHexField 3 (rustHexAlt 3 ([examplePh].getD 0 phDefault).flags) = true ∧
    isRustHexField 6 (rustHexAlt 6 ([examplePh].getD 0 phDefault).alignment) = true :=
  program_header_rendering [examplePh] 0 (by decide) (by decide)


end Readelf
